import Mathlib

/-!
Verification development for the `download-addresses.py` ETL script
(christophfink/austrian-addresses).  The script is shallowly embedded:
pure data flow becomes Lean functions over explicit value types, Python
exceptions become an `Except` error type, and the external collaborator
libraries (overpy network transport, shapely geometry kernels, geopandas
spatial indexes) enter as function parameters, exactly at the call
boundaries the script uses them.
-/

/-- The Python exception classes that the script raises or catches. -/
inductive PyError where
  | keyError
  | indexError
  | attributeError
  | valueError
  | typeError
deriving DecidableEq, Repr

/-- Point geometry as the script builds it: `shapely.Point(x, y)` with real
coordinates (modelled by rationals; no coordinate arithmetic is performed on
them anywhere in the script, they are only stored and compared), or the empty
point `shapely.Point()` used as the explicit unknown-location placeholder.
`shape` stands for geometry produced by the external shapely operations
(polygonized boundary rings and Voronoi cells), which the script only ever
passes to external predicates or carries through columns. -/
inductive Geometry where
  | point (lon lat : ℚ)
  | emptyPoint
  | shape (descr : String)
deriving DecidableEq, Repr

/-- `shapely` geometry normalization (`GeoSeries.normalize`): orders rings and
components canonically.  On a point or the empty point it is the identity;
for opaque external shapes we keep the representative unchanged. -/
def Geometry.normalize (g : Geometry) : Geometry := g

/-- A Python value as it occurs in the script's columns: `None`/NaN, a string,
an integer, a geometry object, or an ndarray of values (which
`pandas.Series.mode` aggregation can leave in a cell). -/
inductive PyVal where
  | vnone
  | vstr (s : String)
  | vint (n : Int)
  | vgeom (g : Geometry)
  | vlist (xs : List PyVal)

mutual

/-- Structural equality test for `PyVal` (written by hand because deriving does
not handle the nested `List PyVal` in this toolchain). -/
def PyVal.decEq : (a b : PyVal) → Decidable (a = b)
  | .vnone, .vnone => isTrue rfl
  | .vstr s, .vstr t =>
    if h : s = t then isTrue (h ▸ rfl)
    else isFalse (fun hh => h (by injection hh))
  | .vint m, .vint n =>
    if h : m = n then isTrue (h ▸ rfl)
    else isFalse (fun hh => h (by injection hh))
  | .vgeom g, .vgeom g' =>
    if h : g = g' then isTrue (h ▸ rfl)
    else isFalse (fun hh => h (by injection hh))
  | .vlist xs, .vlist ys =>
    match PyVal.decEqList xs ys with
    | isTrue h => isTrue (h ▸ rfl)
    | isFalse h => isFalse (fun hh => h (by injection hh))
  | .vnone, .vstr _ => isFalse (fun h => PyVal.noConfusion h)
  | .vnone, .vint _ => isFalse (fun h => PyVal.noConfusion h)
  | .vnone, .vgeom _ => isFalse (fun h => PyVal.noConfusion h)
  | .vnone, .vlist _ => isFalse (fun h => PyVal.noConfusion h)
  | .vstr _, .vnone => isFalse (fun h => PyVal.noConfusion h)
  | .vstr _, .vint _ => isFalse (fun h => PyVal.noConfusion h)
  | .vstr _, .vgeom _ => isFalse (fun h => PyVal.noConfusion h)
  | .vstr _, .vlist _ => isFalse (fun h => PyVal.noConfusion h)
  | .vint _, .vnone => isFalse (fun h => PyVal.noConfusion h)
  | .vint _, .vstr _ => isFalse (fun h => PyVal.noConfusion h)
  | .vint _, .vgeom _ => isFalse (fun h => PyVal.noConfusion h)
  | .vint _, .vlist _ => isFalse (fun h => PyVal.noConfusion h)
  | .vgeom _, .vnone => isFalse (fun h => PyVal.noConfusion h)
  | .vgeom _, .vstr _ => isFalse (fun h => PyVal.noConfusion h)
  | .vgeom _, .vint _ => isFalse (fun h => PyVal.noConfusion h)
  | .vgeom _, .vlist _ => isFalse (fun h => PyVal.noConfusion h)
  | .vlist _, .vnone => isFalse (fun h => PyVal.noConfusion h)
  | .vlist _, .vstr _ => isFalse (fun h => PyVal.noConfusion h)
  | .vlist _, .vint _ => isFalse (fun h => PyVal.noConfusion h)
  | .vlist _, .vgeom _ => isFalse (fun h => PyVal.noConfusion h)

/-- Equality test for lists of `PyVal`, mutually recursive with
`PyVal.decEq`. -/
def PyVal.decEqList : (xs ys : List PyVal) → Decidable (xs = ys)
  | [], [] => isTrue rfl
  | [], _ :: _ => isFalse (fun h => List.noConfusion h)
  | _ :: _, [] => isFalse (fun h => List.noConfusion h)
  | x :: xs, y :: ys =>
    match PyVal.decEq x y with
    | isFalse h => isFalse (fun hh => h (by injection hh))
    | isTrue h =>
      match PyVal.decEqList xs ys with
      | isTrue h2 => isTrue (h ▸ h2 ▸ rfl)
      | isFalse h2 => isFalse (fun hh => h2 (by injection hh))

end

instance : DecidableEq PyVal := PyVal.decEq

instance [DecidableEq ε] [DecidableEq α] : DecidableEq (Except ε α) := fun x y =>
  match x, y with
  | .error a, .error b =>
    if h : a = b then isTrue (h ▸ rfl) else isFalse (fun hh => h (by injection hh))
  | .ok a, .ok b =>
    if h : a = b then isTrue (h ▸ rfl) else isFalse (fun hh => h (by injection hh))
  | .error _, .ok _ => isFalse (fun h => Except.noConfusion h)
  | .ok _, .error _ => isFalse (fun h => Except.noConfusion h)

/-- A pandas column label: the script uses string labels throughout, but the
expression `postcode_areas.loc[...][0]` subscripts a frame with the integer
`0`, so integer labels must be representable to give that expression its real
semantics. -/
inductive PyKey where
  | kstr (s : String)
  | kint (n : Int)
deriving DecidableEq, Repr

/- ## 4.1 Remote query client: the retry-forever loop

Each fetcher runs
`while results is None: try: results = api.query(...) except (OverpassGatewayTimeout, OverpassTooManyRequests): time.sleep(WAITING_TIME)`.
The remote service is modelled as a response function from the attempt number
to an outcome; the loop is observed through a fuel bound (the Python loop has
none: exhausting fuel means the loop is still running, not that it gave up). -/

/-- `WAITING_TIME = datetime.timedelta(minutes=3).total_seconds()`, in seconds. -/
def WAITING_TIME : ℚ := 3 * 60

/-- `CLIP_TO_ADM0 = "Österreich"`. -/
def CLIP_TO_ADM0 : String := "Österreich"

/-- The query string issued (and re-issued verbatim on every retry) by
`download_clip_polygon`. -/
def clipQueryString : String :=
  "[out:json][timeout:25];"
    ++ "rel[\"name\"=\"" ++ CLIP_TO_ADM0 ++ "\"][\"boundary\"=\"administrative\"];"
    ++ "out geom;"

/-- Outcome of one `api.query(...)` call: a result, one of the two caught
overload exceptions, or any other exception. -/
inductive QueryOutcome (α : Type) where
  | success (r : α)
  | gatewayTimeout
  | tooManyRequests
  | otherError (e : PyError)

/-- The two exception classes named in each fetcher's `except` clause. -/
def QueryOutcome.isTransient : QueryOutcome α → Bool
  | .gatewayTimeout => true
  | .tooManyRequests => true
  | _ => false

/-- Externally visible actions of the retry loop. -/
inductive Event where
  | issued (q : String)
  | slept (seconds : ℚ)
deriving DecidableEq, Repr

/-- Loop status after a bounded number of observed iterations: finished with a
result, terminated by an uncaught exception, or still running (the Python
loop itself has no exit besides the first two). -/
inductive RetryResult (α : Type) where
  | done (r : α)
  | raised (e : PyError)
  | running

/-- The fetchers' shared `while results is None: ...` retry loop, returning the
trace of issued queries and sleeps together with the loop status after at most
`fuel` iterations; `n` counts the attempts already made. -/
def retryLoop (q : String) (respond : ℕ → QueryOutcome α) : ℕ → ℕ → List Event × RetryResult α
  | 0, _ => ([], .running)
  | fuel + 1, n =>
    match respond n with
    | .success r => ([.issued q], .done r)
    | .otherError e => ([.issued q], .raised e)
    | .gatewayTimeout =>
      let rest := retryLoop q respond fuel (n + 1)
      (.issued q :: .slept WAITING_TIME :: rest.1, rest.2)
    | .tooManyRequests =>
      let rest := retryLoop q respond fuel (n + 1)
      (.issued q :: .slept WAITING_TIME :: rest.1, rest.2)

/-- `download_clip_polygon` (lines 64-117): run the retry loop on the fixed
boundary query, then hand the result to the external geometry assembly
(line building, `line_merge`, `polygonize`, `unary_union`, buffer and
simplify), which enters as the parameter `assemble`. -/
def download_clip_polygon (assemble : α → PyVal) (respond : ℕ → QueryOutcome α)
    (fuel : ℕ) : List Event × RetryResult PyVal :=
  match retryLoop clipQueryString respond fuel 0 with
  | (evs, .done r) => (evs, .done (assemble r))
  | (evs, .raised e) => (evs, .raised e)
  | (evs, .running) => (evs, .running)

/- ## Deduplication (lines 333-336)

`drop_duplicates` keeps the first row of each duplicate group, preserving
order; pandas treats NaN keys as equal to each other, matching plain value
equality here. -/

/-- One row of the address table assembled by `download_housenumbers`. -/
structure AddressRow where
  street : PyVal
  housenumber : PyVal
  postcode : PyVal
  city : PyVal
  geometry : Geometry
deriving DecidableEq

/-- `drop_duplicates` keyed by `key`, keeping the first occurrence:
the worker carries the set of keys already seen. -/
def dropDupByAux (key : α → β) [DecidableEq β] (seen : List β) : List α → List α
  | [] => []
  | x :: xs =>
    if key x ∈ seen then dropDupByAux key seen xs
    else x :: dropDupByAux key (key x :: seen) xs

/-- `table.drop_duplicates(subset)` with `subset` abstracted to a key
function. -/
def dropDupBy (key : α → β) [DecidableEq β] (xs : List α) : List α :=
  dropDupByAux key [] xs

/-- Lines 335-336: first `drop_duplicates(["geometry"])`, then
`drop_duplicates(["street", "housenumber", "postcode", "city"])`. -/
def dedupAddresses (rows : List AddressRow) : List AddressRow :=
  dropDupBy (fun r => (r.street, r.housenumber, r.postcode, r.city))
    (dropDupBy (fun r => r.geometry) rows)

/- ## A pandas/geopandas frame

A frame is an ordered row index (a list of row labels) together with an
ordered association list of labelled columns; every operation below models the
specific pandas call the script makes, on the frame shapes the script builds.
Operations that can raise in Python return `Except PyError`. -/

/-- A pandas `DataFrame`/`GeoDataFrame`: row labels plus labelled columns. -/
structure Frame where
  index : List PyVal
  cols : List (PyKey × List PyVal)
deriving DecidableEq

/-- Column lookup by label (first match, as for unique pandas labels). -/
def findCol : List (PyKey × List PyVal) → PyKey → Option (List PyVal)
  | [], _ => none
  | kc :: cols, k => if kc.fst = k then some kc.snd else findCol cols k

/-- Entry `i` of column `k` of frame `f` (positional, for stating theorems). -/
def colAt (f : Frame) (k : PyKey) (i : ℕ) : Option PyVal :=
  (findCol f.cols k).bind (fun vs => vs.get? i)

def stK : PyKey := .kstr "street"
def hnK : PyKey := .kstr "housenumber"
def pcK : PyKey := .kstr "postcode"
def cityK : PyKey := .kstr "city"
def geomK : PyKey := .kstr "geometry"
def idK : PyKey := .kstr "id"
def prK : PyKey := .kstr "postcode_right"
def crK : PyKey := .kstr "city_right"
def cfpK : PyKey := .kstr "city_from_postcodes"

/-- A default `RangeIndex 0..n-1`. -/
def rangeIdx (n : ℕ) : List PyVal :=
  (List.range n).map (fun i => .vint (Int.ofNat i))

/-- First position of label `v` in an index. -/
def idxPos : List PyVal → PyVal → Option ℕ
  | [], _ => none
  | w :: ws, v => if w = v then some 0 else (idxPos ws v).map (· + 1)

/-- Value of an indexed series at label `v` (first match). -/
def lookupIdx (idx vals : List PyVal) (v : PyVal) : Option PyVal :=
  (idxPos idx v).map (fun p => vals.getD p .vnone)

/-- Boolean-mask row selection `df[mask]`. -/
def applyMask : List Bool → List α → List α
  | b :: bs, x :: xs => if b then x :: applyMask bs xs else applyMask bs xs
  | _, _ => []

/-- `df[mask]` applied to index and every column. -/
def filterRows (f : Frame) (mask : List Bool) : Frame :=
  ⟨applyMask mask f.index, f.cols.map (fun kc => (kc.fst, applyMask mask kc.snd))⟩

/-- Worker for `df[[k1, ..., kn]]`: collect the named columns in the given
order; a missing label raises `KeyError`. -/
def selectColsAux (cols : List (PyKey × List PyVal)) :
    List PyKey → Except PyError (List (PyKey × List PyVal))
  | [] => .ok []
  | k :: ks =>
    match findCol cols k with
    | none => .error .keyError
    | some vs =>
      match selectColsAux cols ks with
      | .error e => .error e
      | .ok rest => .ok ((k, vs) :: rest)

/-- `df[[k1, ..., kn]]`: column projection, keeping the row index. -/
def selectCols (f : Frame) (ks : List PyKey) : Except PyError Frame :=
  match selectColsAux f.cols ks with
  | .error e => .error e
  | .ok cols => .ok ⟨f.index, cols⟩

/-- `df.set_index(k)`: the named column becomes the index and is removed from
the columns; a missing label raises `KeyError`. -/
def setIndex (f : Frame) (k : PyKey) : Except PyError Frame :=
  match findCol f.cols k with
  | none => .error .keyError
  | some vs => .ok ⟨vs, f.cols.filter (fun kc => decide (kc.fst ≠ k))⟩

/-- `df.reset_index()` / `df.reset_index(names=name)`: the index becomes the
first column, labelled `name` (pandas uses the index's name, which in this
script is always the column the index came from, or the explicit
`names="id"`); the new index is a fresh range.  pandas raises `ValueError`
("cannot insert, already exists") when the frame already has such a column. -/
def resetIndex (f : Frame) (name : String) : Except PyError Frame :=
  if (findCol f.cols (.kstr name)).isSome then .error .valueError
  else .ok ⟨rangeIdx f.index.length, (.kstr name, f.index) :: f.cols⟩

/-- `left.join(series, rsuffix=...)`: left join of a named, uniquely indexed
series onto `left` by index; when the series' name collides with an existing
column the right column is renamed with `rsuffix`.  Should the resulting name
still collide, the degenerate duplicate-label frame (which the pipeline never
builds) is rejected with `ValueError`. -/
def joinSeries (f : Frame) (sIdx sVals : List PyVal) (sName rsuffix : String) :
    Except PyError Frame :=
  let name := if (findCol f.cols (.kstr sName)).isSome then sName ++ rsuffix else sName
  if (findCol f.cols (.kstr name)).isSome then .error .valueError
  else
    .ok ⟨f.index,
      f.cols ++ [(.kstr name, f.index.map (fun v => (lookupIdx sIdx sVals v).getD .vnone))]⟩

/-- `left.join(right)` with no suffixes: left join of a uniquely indexed frame
by index; pandas raises `ValueError` when columns overlap and no suffix was
given. -/
def joinFrame (f right : Frame) : Except PyError Frame :=
  if right.cols.any (fun kc => (findCol f.cols kc.fst).isSome) then .error .valueError
  else
    .ok ⟨f.index,
      f.cols ++ right.cols.map (fun kc =>
        (kc.fst, f.index.map (fun v => (lookupIdx right.index kc.snd v).getD .vnone)))⟩

/-- Row-wise update used for `df.loc[mask, k] = df[other]`: where the mask
holds take the new value, elsewhere keep the old one. -/
def massign : List Bool → List PyVal → List PyVal → List PyVal
  | m :: ms, o :: os, n :: ns => (if m then n else o) :: massign ms os ns
  | _, os, _ => os

/-- `df.loc[mask, k] = vals`: replace column `k` under the mask, leave every
other column untouched. -/
def maskedAssign (f : Frame) (k : PyKey) (mask : List Bool) (vals : List PyVal) : Frame :=
  ⟨f.index, f.cols.map (fun kc => if kc.fst = k then (kc.fst, massign mask kc.snd vals) else kc)⟩

/-- `df[k] = vals`: overwrite an existing column or append a new one. -/
def setColVals (f : Frame) (k : PyKey) (vals : List PyVal) : Frame :=
  if (findCol f.cols k).isSome then
    ⟨f.index, f.cols.map (fun kc => if kc.fst = k then (kc.fst, vals) else kc)⟩
  else ⟨f.index, f.cols ++ [(k, vals)]⟩

/-- The distinct non-null values of a column, in order of first appearance.
These are the group labels of `df.groupby(k)` (pandas drops null keys and
sorts the labels; the sorted order is immaterial here because every grouped
frame the script builds is only ever used as an index-lookup table). -/
def distinctNonNull (vals : List PyVal) : List PyVal :=
  vals.foldl
    (fun acc v =>
      if decide (v = .vnone) || acc.any (fun w => decide (w = v)) then acc else acc ++ [v])
    []

/-- The first non-null value of `vals` among the rows whose key is `k`
(`DataFrameGroupBy.first` semantics); null when the group has none. -/
def firstNonNull (keyVals vals : List PyVal) (k : PyVal) : PyVal :=
  match (keyVals.zip vals).find? (fun p => decide (p.1 = k) && decide (p.2 ≠ .vnone)) with
  | some p => p.2
  | none => .vnone

/-- `df.groupby(k).first()`: one row per distinct non-null key; every other
column keeps its first non-null value within the group; the keys become the
index. -/
def groupbyFirst (f : Frame) (key : PyKey) : Except PyError Frame :=
  match findCol f.cols key with
  | none => .error .keyError
  | some keyVals =>
    .ok ⟨distinctNonNull keyVals,
      (f.cols.filter (fun kc => decide (kc.fst ≠ key))).map (fun kc =>
        (kc.fst, (distinctNonNull keyVals).map (fun k => firstNonNull keyVals kc.snd k)))⟩

/-- The values of `vals` in the rows whose key equals `k`. -/
def groupVals (keyVals vals : List PyVal) (k : PyVal) : List PyVal :=
  (keyVals.zip vals).filterMap (fun p => if p.1 = k then some p.2 else none)

/-- `df.groupby(key, as_index=False)[cols].agg(agg).set_index(key)`: aggregate
the chosen columns per distinct non-null key; the keys become the index. -/
def groupbyAgg (f : Frame) (key : PyKey) (aggCols : List PyKey)
    (agg : List PyVal → PyVal) : Except PyError Frame :=
  match findCol f.cols key with
  | none => .error .keyError
  | some keyVals =>
    if aggCols.all (fun k => (findCol f.cols k).isSome) then
      .ok ⟨distinctNonNull keyVals,
        aggCols.map (fun k =>
          (k, (distinctNonNull keyVals).map
            (fun g => agg (groupVals keyVals ((findCol f.cols k).getD []) g))))⟩
    else .error .keyError

mutual

/-- A total comparison on Python values, standing in for the ordering
`pandas.Series.mode` sorts its result by (the script only ever takes modes of
same-typed scalar columns, where this agrees with the Python ordering). -/
def PyVal.cmp : PyVal → PyVal → Ordering
  | .vnone, .vnone => .eq
  | .vnone, _ => .lt
  | _, .vnone => .gt
  | .vint m, .vint n => compare m n
  | .vint _, _ => .lt
  | _, .vint _ => .gt
  | .vstr s, .vstr t => compare s t
  | .vstr _, _ => .lt
  | _, .vstr _ => .gt
  | .vgeom g, .vgeom g' => compare (toString (repr g)) (toString (repr g'))
  | .vgeom _, _ => .lt
  | _, .vgeom _ => .gt
  | .vlist xs, .vlist ys => PyVal.cmpList xs ys

/-- Lexicographic extension of `PyVal.cmp` to lists. -/
def PyVal.cmpList : List PyVal → List PyVal → Ordering
  | [], [] => .eq
  | [], _ :: _ => .lt
  | _ :: _, [] => .gt
  | x :: xs, y :: ys =>
    match PyVal.cmp x y with
    | .eq => PyVal.cmpList xs ys
    | o => o

end

/-- Insertion of a value into a list sorted by `PyVal.cmp`. -/
def insertPv (v : PyVal) : List PyVal → List PyVal
  | [] => [v]
  | w :: ws =>
    match PyVal.cmp v w with
    | .gt => w :: insertPv v ws
    | _ => v :: w :: ws

/-- Insertion sort by `PyVal.cmp` (the ascending order of
`pandas.Series.mode`). -/
def sortPv (xs : List PyVal) : List PyVal :=
  xs.foldr insertPv []

/-- `pandas.Series.mode`: drop nulls, keep the values of maximal multiplicity,
sorted ascending. -/
def seriesMode (xs : List PyVal) : List PyVal :=
  let nn := xs.filter (fun v => decide (v ≠ .vnone))
  let d := distinctNonNull nn
  let mc := d.foldl (fun m v => max m (nn.count v)) 0
  sortPv (d.filter (fun v => decide (nn.count v = mc)))

/-- `.agg(pandas.Series.mode)` on one cell group: a unique mode is stored as
the scalar itself, otherwise (several modes, or none) the ndarray of modes is
stored. -/
def modeAgg (xs : List PyVal) : PyVal :=
  match seriesMode xs with
  | [m] => m
  | ms => .vlist ms

/-- Column-name suffixing used by `geopandas.sjoin` for overlapping labels. -/
def addSuffix (k : PyKey) (suf : String) : PyKey :=
  match k with
  | .kstr s => .kstr (s ++ "_" ++ suf)
  | .kint n => .kstr (toString n ++ "_" ++ suf)

/-- Left-column expansion for a left spatial join: each left value is repeated
once per match of its row. -/
def expandL (mrows : List (List (Option ℕ))) (vals : List α) : List (List α) :=
  (mrows.zip vals).map (fun p => p.1.map (fun _ => p.2))

/-- Right-column expansion for a left spatial join: matched right values in
order, null for the no-match marker. -/
def expandR (mrows : List (List (Option ℕ))) (vals : List PyVal) : List (List PyVal) :=
  mrows.map (fun ms => ms.map (fun o =>
    match o with
    | some j => vals.getD j .vnone
    | none => .vnone))

/-- `left.sjoin(right, how="left", predicate=pred, lsuffix, rsuffix)`:
one output row per (left row, matching right row), or a single null-filled row
for a left row with no match; the right geometry is dropped, overlapping
column labels get the suffixes, and the right row labels appear as
`index_right`. The spatial predicate itself is a capability of the external
geometry library and enters as a parameter. -/
def sjoin (left right : Frame) (pred : PyVal → PyVal → Bool)
    (lsuf rsuf : String) : Frame :=
  let rGeoms := (findCol right.cols geomK).getD []
  let lGeoms := (findCol left.cols geomK).getD []
  let mrows : List (List (Option ℕ)) := lGeoms.map (fun g =>
    let ms := (List.range rGeoms.length).filter (fun j => pred g (rGeoms.getD j .vnone))
    if ms.isEmpty then [none] else ms.map some)
  let rightKeep := right.cols.filter (fun kc => decide (kc.fst ≠ geomK))
  let isOverlap := fun k => (findCol left.cols k).isSome && (findCol rightKeep k).isSome
  let lcols := left.cols.map (fun kc =>
    (if isOverlap kc.fst then addSuffix kc.fst lsuf else kc.fst, (expandL mrows kc.snd).flatten))
  let rcols := rightKeep.map (fun kc =>
    (if isOverlap kc.fst then addSuffix kc.fst rsuf else kc.fst, (expandR mrows kc.snd).flatten))
  ⟨(expandL mrows left.index).flatten,
    lcols ++ (.kstr "index_right", (expandR mrows right.index).flatten) :: rcols⟩

/- ## 4.4 The address fetcher `download_housenumbers` (lines 252-336)

The per-area `while` loops are the retry loop above; the fetcher body is
parametrized by the query results those loops eventually produced (one per
NUTS area).  `addresses` is a plain Python dict of lists until line 333, and
the script's subscript mistakes make the dict-value distinction observable:
`addresses[tag] = postcode_area[tag]` would replace a whole column list by a
scalar, after which `.append` (and `.astype`) raise `AttributeError`. -/

/-- One overpy element (node, way or relation).  An `Option` field stands for
the presence of the overpy attribute: `none` means the attribute access
(`element.center_lon` / `element.lon`) raises `AttributeError`, which is what
the geometry-resolution `try`/`except` in lines 283-293 distinguishes. -/
structure Element where
  center : Option (ℚ × ℚ)
  lonlat : Option (ℚ × ℚ)
  tags : List (String × String)
deriving DecidableEq

/-- One overpy query result, with its nodes, ways and relations. -/
structure OverpassResult where
  nodes : List Element
  ways : List Element
  relations : List Element
deriving DecidableEq

/-- `itertools.chain(results.nodes, results.ways, results.relations)` over the
per-area results, in download order. -/
def allElements (rs : List OverpassResult) : List Element :=
  (rs.map (fun r => r.nodes ++ r.ways ++ r.relations)).flatten

/-- Lines 283-293: `shapely.Point(element.center_lon, element.center_lat)`
first; on `AttributeError`, `shapely.Point(element.lon, element.lat)`; on any
further exception, the empty point. -/
def resolveGeometry (e : Element) : Geometry :=
  match e.center with
  | some c => .point c.1 c.2
  | none =>
    match e.lonlat with
    | some p => .point p.1 p.2
    | none => .emptyPoint

/-- `element.tags["addr:" + tag]` as an optional lookup (missing key raises
`KeyError`, which the script catches). -/
def tagValue (e : Element) (tag : String) : Option String :=
  (e.tags.find? (fun p => decide (p.fst = "addr:" ++ tag))).map Prod.snd

/-- A value of the `addresses` dict: a Python list being appended to, or the
scalar that `addresses[tag] = postcode_area[tag]` would leave behind. -/
inductive Column where
  | pylist (xs : List PyVal)
  | pyscalar (v : PyVal)
deriving DecidableEq

/-- `column.append(v)`: Python lists append; a scalar (a string or `None`)
has no `append` attribute and raises `AttributeError`. -/
def Column.append : Column → PyVal → Except PyError Column
  | .pylist xs, v => .ok (.pylist (xs ++ [v]))
  | .pyscalar _, _ => .error .attributeError

/-- `.astype("int")` on an `addresses` dict value (line 331): the value is a
plain Python list (or a leftover scalar), and neither defines `astype`, so the
call raises `AttributeError` — only pandas/numpy objects have `astype`, and
the dict is not converted to a `GeoDataFrame` until line 333. -/
def Column.astypeInt : Column → Except PyError Column
  | .pylist _ => .error .attributeError
  | .pyscalar _ => .error .attributeError

/-- The four tag names of the loop in lines 296-301. -/
inductive AddrTag where
  | street
  | housenumber
  | postcode
  | city
deriving DecidableEq

def AddrTag.name : AddrTag → String
  | .street => "street"
  | .housenumber => "housenumber"
  | .postcode => "postcode"
  | .city => "city"

/-- The `addresses` accumulator dict (lines 253-259). -/
structure AddrCols where
  street : Column
  housenumber : Column
  postcode : Column
  city : Column
  geometry : List Geometry
deriving DecidableEq

def initAddrCols : AddrCols :=
  ⟨.pylist [], .pylist [], .pylist [], .pylist [], []⟩

def AddrCols.get (st : AddrCols) : AddrTag → Column
  | .street => st.street
  | .housenumber => st.housenumber
  | .postcode => st.postcode
  | .city => st.city

def AddrCols.set (st : AddrCols) : AddrTag → Column → AddrCols
  | .street, c => { st with street := c }
  | .housenumber, c => { st with housenumber := c }
  | .postcode, c => { st with postcode := c }
  | .city, c => { st with city := c }

/-- `addresses[tag].append(v)`. -/
def appendCol (st : AddrCols) (t : AddrTag) (v : PyVal) : Except PyError AddrCols :=
  match (st.get t).append v with
  | .ok c => .ok (st.set t c)
  | .error e => .error e

/-- `df.loc[labels]`: label-based row selection; any label missing from the
index raises `KeyError`. -/
def locRows (f : Frame) (labels : List PyVal) : Except PyError Frame :=
  if labels.all (fun l => (idxPos f.index l).isSome) then
    .ok ⟨labels, f.cols.map (fun kc =>
      (kc.fst, labels.map (fun l => (lookupIdx f.index kc.snd l).getD .vnone)))⟩
  else .error .keyError

/-- The whole `try` body of lines 306-313 (and its municipality twin):
`table.loc[table.sindex.query(geometry, predicate="within")][0]` followed by
subscripting the result with `field`.  The spatial index query is a capability
of the external geometry library (`within` parameter) and returns row
positions, which `.loc` then treats as labels; the trailing `[0]` selects the
*column* labelled `0` from the resulting frame — the tables' columns are all
strings, so it raises `KeyError`; were an integer-0 column present, the final
`[field]` would look the string `field` up in the integer row labels and raise
`KeyError` itself.  A table with no geometry column cannot build `.sindex` and
raises `AttributeError`. -/
def areaFieldLookup (areas : Frame) (within : Geometry → PyVal → Bool)
    (g : Geometry) (field : String) : Except PyError PyVal :=
  match findCol areas.cols geomK with
  | none => .error .attributeError
  | some geoms =>
    match locRows areas
        (((List.range geoms.length).filter (fun j => within g (geoms.getD j .vnone))).map
          (fun j => PyVal.vint (Int.ofNat j))) with
    | .error e => .error e
    | .ok sub =>
      match findCol sub.cols (.kint 0) with
      | none => .error .keyError
      | some colVals =>
        match lookupIdx sub.index colVals (.vstr field) with
        | some v => .ok v
        | none => .error .keyError

/-- Lines 296-329: one iteration of the tag loop.  A present source tag is
appended; a missing `postcode`/`city` triggers the postal-code-area lookup,
whose `(IndexError, KeyError)` failures fall back (for `city`) to the
municipality lookup and finally to appending `None`; note that a *successful*
lookup would execute `addresses[tag] = ...`, replacing the whole column by a
scalar, and that the municipality branch reads the non-existent column
`"name"`. -/
def processTag (pa mun : Frame) (wpa wmun : Geometry → PyVal → Bool)
    (e : Element) (g : Geometry) (st : AddrCols) (t : AddrTag) : Except PyError AddrCols :=
  match tagValue e t.name with
  | some v => appendCol st t (.vstr v)
  | none =>
    if t = .postcode ∨ t = .city then
      match areaFieldLookup pa wpa g t.name with
      | .ok v => .ok (st.set t (.pyscalar v))
      | .error e1 =>
        if e1 = .indexError ∨ e1 = .keyError then
          if t = .city then
            match areaFieldLookup mun wmun g "name" with
            | .ok v => .ok (st.set t (.pyscalar v))
            | .error e2 =>
              if e2 = .indexError ∨ e2 = .keyError then appendCol st t .vnone
              else .error e2
          else appendCol st t .vnone
        else .error e1
    else appendCol st t .vnone

/-- The tag loop of lines 296-329 over a list of tags. -/
def processTags (pa mun : Frame) (wpa wmun : Geometry → PyVal → Bool)
    (e : Element) (g : Geometry) : List AddrTag → AddrCols → Except PyError AddrCols
  | [], st => .ok st
  | t :: ts, st =>
    match processTag pa mun wpa wmun e g st t with
    | .ok st' => processTags pa mun wpa wmun e g ts st'
    | .error err => .error err

/-- Lines 283-329: one element — append its resolved geometry, then run the
tag loop over `["street", "housenumber", "postcode", "city"]`. -/
def processElement (pa mun : Frame) (wpa wmun : Geometry → PyVal → Bool)
    (st : AddrCols) (e : Element) : Except PyError AddrCols :=
  let g := resolveGeometry e
  let st := { st with geometry := st.geometry ++ [g] }
  processTags pa mun wpa wmun e g [.street, .housenumber, .postcode, .city] st

/-- The element loop of lines 278-329. -/
def processElements (pa mun : Frame) (wpa wmun : Geometry → PyVal → Bool) :
    List Element → AddrCols → Except PyError AddrCols
  | [], st => .ok st
  | e :: es, st =>
    match processElement pa mun wpa wmun st e with
    | .ok st' => processElements pa mun wpa wmun es st'
    | .error err => .error err

/-- A dict value as the `GeoDataFrame` constructor of line 333 reads it:
a list is taken as is, a scalar is broadcast along the index. -/
def Column.toListN (c : Column) (n : ℕ) : List PyVal :=
  match c with
  | .pylist xs => xs
  | .pyscalar v => List.replicate n v

/-- Row-wise zip of the five accumulated columns into address records. -/
def zipRows : List PyVal → List PyVal → List PyVal → List PyVal → List Geometry →
    List AddressRow
  | s :: ss, h :: hs, p :: ps, c :: cs, g :: gs => ⟨s, h, p, c, g⟩ :: zipRows ss hs ps cs gs
  | _, _, _, _, _ => []

/-- Line 333: `geopandas.GeoDataFrame(addresses, crs="EPSG:4326")` as a list of
rows. -/
def buildRows (st : AddrCols) : List AddressRow :=
  let n := st.geometry.length
  zipRows (st.street.toListN n) (st.housenumber.toListN n) (st.postcode.toListN n)
    (st.city.toListN n) st.geometry

/-- `download_housenumbers` (lines 252-336): accumulate all elements, coerce
the postcode column with `.astype("int")` (line 331), build the frame,
normalize geometry, deduplicate — and end without a `return` statement, which
in Python yields `None`. -/
def download_housenumbers (clip_polygon : PyVal) (pa mun : Frame)
    (wpa wmun : Geometry → PyVal → Bool) (rs : List OverpassResult) :
    Except PyError (Option (List AddressRow)) :=
  match processElements pa mun wpa wmun (allElements rs) initAddrCols with
  | .error e => .error e
  | .ok st =>
    match st.postcode.astypeInt with
    | .error e => .error e
    | .ok coerced =>
      let st := st.set .postcode coerced
      let _rows := dedupAddresses
        ((buildRows st).map (fun r => { r with geometry := r.geometry.normalize }))
      .ok none

/- ## 4.5 `fill_in_gaps` (lines 339-405) -/

/-- Pass 1 (lines 341-367), postcode-propagated city fill:
build `postcodes = addresses[addresses.city.notnull()].groupby("postcode")
.first().reset_index()[["postcode", "city"]].set_index("postcode")`,
left-join its `city` series by postcode (renamed `city_from_postcodes`),
copy it into `city` where `city` is null and the joined value is not, and
reset the columns to `["street", "housenumber", "postcode", "city",
"geometry"]`. -/
def postcodeCityFill (f : Frame) : Except PyError Frame :=
  match findCol f.cols cityK with
  | none => .error .attributeError
  | some cityVals =>
    let sub := filterRows f (cityVals.map (fun v => decide (v ≠ .vnone)))
    match groupbyFirst sub pcK with
    | .error e => .error e
    | .ok grouped =>
      match resetIndex grouped "postcode" with
      | .error e => .error e
      | .ok grouped2 =>
        match selectCols grouped2 [pcK, cityK] with
        | .error e => .error e
        | .ok gsel =>
          match setIndex gsel pcK with
          | .error e => .error e
          | .ok postcodes =>
            match setIndex f pcK with
            | .error e => .error e
            | .ok a1 =>
              match findCol postcodes.cols cityK with
              | none => .error .keyError
              | some canonCity =>
                match joinSeries a1 postcodes.index canonCity "city" "_from_postcodes" with
                | .error e => .error e
                | .ok a2 =>
                  match resetIndex a2 "postcode" with
                  | .error e => .error e
                  | .ok a3 =>
                    match findCol a3.cols cityK, findCol a3.cols cfpK with
                    | some c3, some cfp3 =>
                      let mask := List.zipWith
                        (fun x y => decide (x = PyVal.vnone) && decide (y ≠ PyVal.vnone)) c3 cfp3
                      let a4 := maskedAssign a3 cityK mask cfp3
                      selectCols a4 [stK, hnK, pcK, cityK, geomK]
                    | _, _ => .error .attributeError

/-- Pass 2 (lines 369-401), neighbour-majority fill: give every row an `id`
equal to its position, spatially join the rows still missing `postcode` or
`city` against `addresses[["postcode", "city", "geometry"]]` with the
`touches` predicate, aggregate the per-id neighbour values with
`pandas.Series.mode`, join the aggregate back by id, copy it into the fields
that are null, and reset the columns to `["street", "housenumber",
"postcode", "city", "geometry"]`. -/
def neighbourFill (touches : PyVal → PyVal → Bool) (f : Frame) : Except PyError Frame :=
  match resetIndex f "id" with
  | .error e => .error e
  | .ok a =>
    match findCol a.cols cityK, findCol a.cols pcK with
    | some cVals, some pVals =>
      let needy := filterRows a (List.zipWith
        (fun c p => decide (c = PyVal.vnone) || decide (p = PyVal.vnone)) cVals pVals)
      match selectCols a [pcK, cityK, geomK] with
      | .error e => .error e
      | .ok rsel =>
        let joined := sjoin needy rsel touches "left" "right"
        match groupbyAgg joined idK [prK, crK] modeAgg with
        | .error e => .error e
        | .ok nbrs =>
          match joinFrame a nbrs with
          | .error e => .error e
          | .ok b =>
            match findCol b.cols pcK, findCol b.cols prK with
            | some pB, some prB =>
              let b1 := maskedAssign b pcK (pB.map (fun v => decide (v = PyVal.vnone))) prB
              match findCol b1.cols cityK, findCol b1.cols crK with
              | some cB, some crB =>
                let b2 := maskedAssign b1 cityK (cB.map (fun v => decide (v = PyVal.vnone))) crB
                selectCols b2 [stK, hnK, pcK, cityK, geomK]
              | _, _ => .error .attributeError
            | _, _ => .error .attributeError
    | _, _ => .error .attributeError

/-- `fill_in_gaps` (lines 339-405): pass 1, then pass 2 (step 3, street-name
fill, is an unimplemented TODO in the source), returning the frame. -/
def fillInGaps (touches : PyVal → PyVal → Bool) (f : Frame) : Except PyError Frame :=
  match postcodeCityFill f with
  | .error e => .error e
  | .ok g => neighbourFill touches g

/- ## The output stage of `main` (lines 408-473) -/

/-- Lines 431-456, the tessellation build over a given address frame:
`geopandas.GeoDataFrame` of the Voronoi cells (external
`voronoi_polygons()`, entering as the `cells` list), left spatial join with
the addresses under the `contains` predicate and `lsuffix=""`, `id` set to
the row index, column reset to `["id", "street", "housenumber", "postcode",
"city", "geometry"]`, clip to the national boundary (external
`GeoDataFrame.clip`, entering as `clipFn`), then `fill_in_gaps`. -/
def voronoiStage (addresses : Frame) (cells : List PyVal)
    (contains : PyVal → PyVal → Bool) (clipFn : Frame → Frame)
    (touches : PyVal → PyVal → Bool) : Except PyError Frame :=
  let vp : Frame := ⟨rangeIdx cells.length, [(geomK, cells)]⟩
  let vp := sjoin vp addresses contains "" "right"
  let vp := setColVals vp idK vp.index
  match selectCols vp [idK, stK, hnK, pcK, cityK, geomK] with
  | .error e => .error e
  | .ok vp2 => fillInGaps touches (clipFn vp2)

/-- The two serialized outputs of `main`, given the address frame it operates
on: the address table is written to its archive as is (line 420) before the
tessellation is derived, and only the tessellation passes through the clip
step. -/
structure MainOutputs where
  addressArchive : Frame
  voronoiArchive : Except PyError Frame

/-- Lines 418-473 of `main` as a function of the address frame. -/
def mainOutputStage (addresses : Frame) (cells : List PyVal)
    (contains : PyVal → PyVal → Bool) (clipFn : Frame → Frame)
    (touches : PyVal → PyVal → Bool) : MainOutputs :=
  { addressArchive := addresses
    voronoiArchive := voronoiStage addresses cells contains clipFn touches }

/- ## Helper lemmas -/

theorem dropDupByAux_sublist (key : α → β) [DecidableEq β] :
    ∀ (xs : List α) (seen : List β), (dropDupByAux key seen xs).Sublist xs := by
  intro xs
  induction xs with
  | nil => intro seen; simp [dropDupByAux]
  | cons x xs ih =>
    intro seen
    simp only [dropDupByAux]
    split
    · exact (ih seen).cons x
    · exact (ih _).cons₂ x

theorem dropDupByAux_nodup (key : α → β) [DecidableEq β] :
    ∀ (xs : List α) (seen : List β),
      ((dropDupByAux key seen xs).map key).Nodup
        ∧ ∀ x ∈ dropDupByAux key seen xs, key x ∉ seen := by
  intro xs
  induction xs with
  | nil => intro seen; simp [dropDupByAux]
  | cons x xs ih =>
    intro seen
    simp only [dropDupByAux]
    split
    · exact ih seen
    · rename_i hx
      obtain ⟨h1, h2⟩ := ih (key x :: seen)
      refine ⟨?_, ?_⟩
      · simp only [List.map_cons, List.nodup_cons]
        refine ⟨?_, h1⟩
        intro hmem
        obtain ⟨y, hy, hky⟩ := List.mem_map.mp hmem
        exact (h2 y hy) (by simp [hky])
      · intro z hz
        rcases List.mem_cons.mp hz with h | h
        · subst h; exact hx
        · intro hs
          exact (h2 z h) (List.mem_cons_of_mem _ hs)

theorem dropDupByAux_of_nodup (key : α → β) [DecidableEq β] :
    ∀ (xs : List α) (seen : List β), (xs.map key).Nodup →
      (∀ x ∈ xs, key x ∉ seen) → dropDupByAux key seen xs = xs := by
  intro xs
  induction xs with
  | nil => intro seen _ _; rfl
  | cons x xs ih =>
    intro seen hnd hfresh
    simp only [List.map_cons, List.nodup_cons] at hnd
    simp only [dropDupByAux]
    rw [if_neg (hfresh x (List.mem_cons_self x xs))]
    rw [ih (key x :: seen) hnd.2]
    intro y hy
    intro hmem
    rcases List.mem_cons.mp hmem with h | h
    · exact hnd.1 (h ▸ List.mem_map_of_mem key hy)
    · exact hfresh y (List.mem_cons_of_mem _ hy) h

/- ## C6 -/

/-- C6: the two-step deduplication of lines 333-336 — `drop_duplicates` by
exact (normalized) geometry, then by the `(street, housenumber, postcode,
city)` tuple — is idempotent: applying it to an already deduplicated address
table removes no further rows. -/
theorem c6_dedup_idempotent :
    ∀ rows : List AddressRow, dedupAddresses (dedupAddresses rows) = dedupAddresses rows := by
  intro rows
  unfold dedupAddresses dropDupBy
  set g : AddressRow → Geometry := fun r => r.geometry with hg
  set t : AddressRow → PyVal × PyVal × PyVal × PyVal :=
    fun r => (r.street, r.housenumber, r.postcode, r.city) with ht
  set r1 := dropDupByAux g [] rows with hr1
  set r2 := dropDupByAux t [] r1 with hr2
  have hgnodup : (r1.map g).Nodup := (dropDupByAux_nodup g rows []).1
  have hsub : r2.Sublist r1 := dropDupByAux_sublist t r1 []
  have hg2 : (r2.map g).Nodup := (hsub.map g).nodup hgnodup
  have ht2 : (r2.map t).Nodup := (dropDupByAux_nodup t r1 []).1
  rw [dropDupByAux_of_nodup g r2 [] hg2 (by simp)]
  rw [dropDupByAux_of_nodup t r2 [] ht2 (by simp)]

/- ## C4 -/

theorem retryLoop_events (q : String) (respond : ℕ → QueryOutcome α) :
    ∀ (fuel n : ℕ), ∀ ev ∈ (retryLoop q respond fuel n).1,
      ev = Event.issued q ∨ ev = Event.slept WAITING_TIME := by
  intro fuel
  induction fuel with
  | zero => intro n ev h; simp [retryLoop] at h
  | succ fuel ih =>
    intro n ev h
    simp only [retryLoop] at h
    cases hr : respond n <;> rw [hr] at h <;> simp at h
    · exact Or.inl h
    · rcases h with h | h | h
      · exact Or.inl h
      · exact Or.inr h
      · exact ih (n + 1) ev h
    · rcases h with h | h | h
      · exact Or.inl h
      · exact Or.inr h
      · exact ih (n + 1) ev h
    · exact Or.inl h

theorem retryLoop_raises (q : String) (respond : ℕ → QueryOutcome α)
    (fuel n : ℕ) (er : PyError) (hr : respond n = .otherError er) (hf : 0 < fuel) :
    (retryLoop q respond fuel n).2 = .raised er := by
  cases fuel with
  | zero => exact absurd hf (lt_irrefl 0)
  | succ fuel => simp [retryLoop, hr]

theorem retryLoop_transient_step (q : String) (respond : ℕ → QueryOutcome α)
    (fuel n : ℕ) (h : (respond n).isTransient = true) :
    retryLoop q respond (fuel + 1) n =
      (Event.issued q :: Event.slept WAITING_TIME :: (retryLoop q respond fuel (n + 1)).1,
        (retryLoop q respond fuel (n + 1)).2) := by
  cases hr : respond n <;> rw [hr] at h <;>
    simp [QueryOutcome.isTransient] at h <;> simp [retryLoop, hr]

theorem retryLoop_running (q : String) (respond : ℕ → QueryOutcome α) :
    ∀ (fuel n : ℕ), (∀ k, k < fuel → (respond (n + k)).isTransient = true) →
      (retryLoop q respond fuel n).2 = .running := by
  intro fuel
  induction fuel with
  | zero => intro n _; simp [retryLoop]
  | succ fuel ih =>
    intro n h
    have h0 : (respond n).isTransient = true := by
      have := h 0 (Nat.succ_pos fuel)
      simpa using this
    have hrest : (retryLoop q respond fuel (n + 1)).2 = .running := by
      refine ih (n + 1) ?_
      intro k hk
      have := h (k + 1) (by omega)
      rwa [show n + (k + 1) = n + 1 + k by omega] at this
    cases hr : respond n <;> rw [hr] at h0 <;>
      simp [QueryOutcome.isTransient] at h0 <;> simp [retryLoop, hr, hrest]

/-- C4: the retry loop shared by every fetcher (`download_clip_polygon`,
`download_postcode_areas`, `download_municipalities`,
`download_housenumbers`) only ever issues the identical query and sleeps the
fixed `WAITING_TIME` (no backoff growth); a non-transient exception
propagates immediately; and as long as the service keeps answering with the
gateway-timeout / rate-limited conditions the loop is still running after any
number of iterations (no retry cap). -/
theorem c4_retry_policy :
    ∀ (α : Type) (q : String) (respond : ℕ → QueryOutcome α) (fuel n : ℕ),
      (∀ ev ∈ (retryLoop q respond fuel n).1,
        ev = Event.issued q ∨ ev = Event.slept WAITING_TIME)
      ∧ (∀ er, respond n = .otherError er → 0 < fuel →
          (retryLoop q respond fuel n).2 = .raised er)
      ∧ ((respond n).isTransient = true →
          retryLoop q respond (fuel + 1) n =
            (Event.issued q :: Event.slept WAITING_TIME :: (retryLoop q respond fuel (n + 1)).1,
              (retryLoop q respond fuel (n + 1)).2))
      ∧ ((∀ k, k < fuel → (respond (n + k)).isTransient = true) →
          (retryLoop q respond fuel n).2 = .running) :=
  fun α q respond fuel n =>
    ⟨retryLoop_events q respond fuel n,
     fun er hr hf => retryLoop_raises q respond fuel n er hr hf,
     fun h => retryLoop_transient_step q respond fuel n h,
     fun h => retryLoop_running q respond fuel n h⟩

/-- A remote service that is overloaded once, then fails hard, then works. -/
def respOnceBusy : ℕ → QueryOutcome ℕ :=
  fun k => if k = 0 then .gatewayTimeout else if k = 1 then .otherError .valueError else .success 7

/-- A remote service that is rate-limited forever. -/
def respAllBusy : ℕ → QueryOutcome ℕ := fun _ => .tooManyRequests

theorem c4_retry_policy_witness :
    (Event.slept WAITING_TIME = Event.issued clipQueryString
      ∨ Event.slept WAITING_TIME = Event.slept WAITING_TIME)
    ∧ (retryLoop clipQueryString respOnceBusy 2 1).2 = .raised .valueError
    ∧ retryLoop clipQueryString respOnceBusy (2 + 1) 0 =
        (Event.issued clipQueryString :: Event.slept WAITING_TIME ::
          (retryLoop clipQueryString respOnceBusy 2 1).1,
          (retryLoop clipQueryString respOnceBusy 2 1).2)
    ∧ (retryLoop clipQueryString respAllBusy 4 0).2 = .running :=
  ⟨(c4_retry_policy ℕ clipQueryString respOnceBusy 3 0).1 (Event.slept WAITING_TIME)
      (by
        have hev : (retryLoop clipQueryString respOnceBusy 3 0).1 =
            [Event.issued clipQueryString, Event.slept WAITING_TIME,
              Event.issued clipQueryString] := rfl
        rw [hev]
        exact List.mem_cons_of_mem _ (List.mem_cons_self _ _)),
   (c4_retry_policy ℕ clipQueryString respOnceBusy 2 1).2.1 .valueError rfl (by decide),
   (c4_retry_policy ℕ clipQueryString respOnceBusy 2 0).2.2.1 rfl,
   (c4_retry_policy ℕ clipQueryString respAllBusy 4 0).2.2.2 (fun k _ => rfl)⟩

/- ## C9 -/

/-- C9: geometry resolution order for every fetched address feature — the
pre-computed center point wins; otherwise the direct node coordinate;
otherwise the explicit empty point.  `resolveGeometry` is a total function:
no input makes it raise (the script catches `AttributeError` around the first
access and catches everything around the second). -/
theorem c9_geometry_resolution :
    ∀ e : Element,
      (∀ c, e.center = some c → resolveGeometry e = .point c.1 c.2)
      ∧ (e.center = none → ∀ p, e.lonlat = some p → resolveGeometry e = .point p.1 p.2)
      ∧ (e.center = none → e.lonlat = none → resolveGeometry e = .emptyPoint) := by
  intro e
  refine ⟨?_, ?_, ?_⟩
  · intro c hc; simp [resolveGeometry, hc]
  · intro hc p hp; simp [resolveGeometry, hc, hp]
  · intro hc hp; simp [resolveGeometry, hc, hp]

theorem c9_geometry_resolution_witness :
    resolveGeometry ⟨some (1, 2), some (3, 4), []⟩ = .point 1 2
    ∧ resolveGeometry ⟨none, some (3, 4), []⟩ = .point 3 4
    ∧ resolveGeometry ⟨none, none, []⟩ = .emptyPoint :=
  ⟨(c9_geometry_resolution ⟨some (1, 2), some (3, 4), []⟩).1 (1, 2) rfl,
   (c9_geometry_resolution ⟨none, some (3, 4), []⟩).2.1 rfl (3, 4) rfl,
   (c9_geometry_resolution ⟨none, none, []⟩).2.2 rfl rfl⟩

/- ## C10 -/

/-- C10: the clip polygon handed to `download_housenumbers` is never used
there (the result is the same for any two clip arguments), and in the output
stage of `main` the address table is serialized exactly as given — only the
Voronoi frame passes through the clip step. -/
theorem c10_addresses_never_clipped :
    (∀ (c₁ c₂ : PyVal) (pa mun : Frame) (wpa wmun : Geometry → PyVal → Bool)
        (rs : List OverpassResult),
      download_housenumbers c₁ pa mun wpa wmun rs = download_housenumbers c₂ pa mun wpa wmun rs)
    ∧ (∀ (a : Frame) (cells : List PyVal) (contains : PyVal → PyVal → Bool)
        (clipFn : Frame → Frame) (touches : PyVal → PyVal → Bool),
      (mainOutputStage a cells contains clipFn touches).addressArchive = a) :=
  ⟨fun _ _ _ _ _ _ _ => rfl, fun _ _ _ _ _ => rfl⟩

/- ## C2 (with C1, C3): what `download_housenumbers` actually does -/

theorem idxPos_vint_of_vstr (s : String) :
    ∀ ps : List ℕ, idxPos (ps.map (fun j => PyVal.vint (Int.ofNat j))) (.vstr s) = none := by
  intro ps
  induction ps with
  | nil => rfl
  | cons p ps ih =>
    rw [List.map_cons]
    unfold idxPos
    rw [if_neg (by simp), ih]
    rfl

/-- `locRows` only ever fails with `KeyError`. -/
theorem locRows_error (f : Frame) (labels : List PyVal) (e : PyError)
    (h : locRows f labels = .error e) : e = .keyError := by
  unfold locRows at h
  split at h
  · cases h
  · cases h; rfl

/-- The postal-code-area/municipality lookup of lines 306-313 can only fail
with `KeyError` (from `.loc` label selection, the `[0]` column subscript, or
the final field subscript) or `AttributeError` (no geometry column to build a
spatial index on). -/
theorem areaFieldLookup_error (areas : Frame) (w : Geometry → PyVal → Bool)
    (g : Geometry) (field : String) (e : PyError)
    (h : areaFieldLookup areas w g field = .error e) :
    e = .keyError ∨ e = .attributeError := by
  unfold areaFieldLookup at h
  split at h
  · cases h; exact Or.inr rfl
  · split at h
    · rename_i e' he'
      cases h
      exact Or.inl (locRows_error _ _ _ he')
    · split at h
      · cases h; exact Or.inl rfl
      · split at h
        · cases h
        · cases h; exact Or.inl rfl

theorem appendCol_cases (st : AddrCols) (t : AddrTag) (v : PyVal) :
    (∃ st', appendCol st t v = .ok st') ∨ appendCol st t v = .error .attributeError := by
  cases hc : st.get t with
  | pylist xs =>
    exact Or.inl ⟨st.set t (.pylist (xs ++ [v])), by simp [appendCol, Column.append, hc]⟩
  | pyscalar w =>
    exact Or.inr (by simp [appendCol, Column.append, hc])

/-- Every path through one tag iteration either extends the accumulator or
raises `AttributeError` (the only uncaught exception class reachable there). -/
theorem processTag_cases (pa mun : Frame) (wpa wmun : Geometry → PyVal → Bool)
    (e : Element) (g : Geometry) (st : AddrCols) (t : AddrTag) :
    (∃ st', processTag pa mun wpa wmun e g st t = .ok st')
      ∨ processTag pa mun wpa wmun e g st t = .error .attributeError := by
  unfold processTag
  split
  · exact appendCol_cases st t _
  · split
    · cases ha : areaFieldLookup pa wpa g t.name with
      | ok v => exact Or.inl ⟨_, rfl⟩
      | error e1 =>
        have he1 := areaFieldLookup_error pa wpa g t.name e1 ha
        dsimp only
        split
        · split
          · cases hm : areaFieldLookup mun wmun g "name" with
            | ok v => exact Or.inl ⟨_, rfl⟩
            | error e2 =>
              have he2 := areaFieldLookup_error mun wmun g "name" e2 hm
              dsimp only
              split
              · exact appendCol_cases st t _
              · rename_i hne
                rcases he2 with rfl | rfl
                · exact absurd (Or.inr rfl) hne
                · exact Or.inr rfl
          · exact appendCol_cases st t _
        · rename_i hne
          rcases he1 with rfl | rfl
          · exact absurd (Or.inr rfl) hne
          · exact Or.inr rfl
    · exact appendCol_cases st t _

theorem processTags_cases (pa mun : Frame) (wpa wmun : Geometry → PyVal → Bool)
    (e : Element) (g : Geometry) :
    ∀ (ts : List AddrTag) (st : AddrCols),
      (∃ st', processTags pa mun wpa wmun e g ts st = .ok st')
        ∨ processTags pa mun wpa wmun e g ts st = .error .attributeError := by
  intro ts
  induction ts with
  | nil => intro st; exact Or.inl ⟨st, rfl⟩
  | cons t ts ih =>
    intro st
    rcases processTag_cases pa mun wpa wmun e g st t with ⟨st', hst'⟩ | herr
    · simpa [processTags, hst'] using ih st'
    · simp [processTags, herr]

theorem processElements_cases (pa mun : Frame) (wpa wmun : Geometry → PyVal → Bool) :
    ∀ (es : List Element) (st : AddrCols),
      (∃ st', processElements pa mun wpa wmun es st = .ok st')
        ∨ processElements pa mun wpa wmun es st = .error .attributeError := by
  intro es
  induction es with
  | nil => intro st; exact Or.inl ⟨st, rfl⟩
  | cons e es ih =>
    intro st
    rcases processTags_cases pa mun wpa wmun e (resolveGeometry e)
        [.street, .housenumber, .postcode, .city]
        { st with geometry := st.geometry ++ [resolveGeometry e] } with ⟨st', hst'⟩ | herr
    · have hpe : processElement pa mun wpa wmun st e = .ok st' := hst'
      simpa [processElements, hpe] using ih st'
    · have hpe : processElement pa mun wpa wmun st e = .error .attributeError := herr
      simp [processElements, hpe]

/-- C2 (amended): `download_housenumbers` never returns its computed address
table — but not by returning `None`: on *every* input it raises
`AttributeError`, at the latest at line 331 where `.astype("int")` is invoked
on the plain Python list `addresses["postcode"]` (the dict is only turned
into a `GeoDataFrame` at line 333), so the `return`-less fall-through at line
336 is itself unreachable and the caller's output stage is never reached. -/
theorem c2_always_raises :
    ∀ (clip : PyVal) (pa mun : Frame) (wpa wmun : Geometry → PyVal → Bool)
      (rs : List OverpassResult),
      download_housenumbers clip pa mun wpa wmun rs = .error .attributeError := by
  intro clip pa mun wpa wmun rs
  unfold download_housenumbers
  rcases processElements_cases pa mun wpa wmun (allElements rs) initAddrCols with
    ⟨st, hst⟩ | herr
  · rw [hst]
    dsimp only
    have hat : st.postcode.astypeInt = .error .attributeError := by
      cases st.postcode <;> rfl
    rw [hat]
  · rw [herr]

/-- C2 counterexample to the claim as stated: at a concrete input (the empty
download) `download_housenumbers` evaluates to `AttributeError`, which is not
the `None` return the claim asserts. -/
theorem c2_counterexample :
    download_housenumbers PyVal.vnone ⟨[], []⟩ ⟨[], []⟩ (fun _ _ => false) (fun _ _ => false) []
        = .error .attributeError
    ∧ (Except.error PyError.attributeError
        ≠ (Except.ok none : Except PyError (Option (List AddressRow)))) :=
  ⟨rfl, by simp⟩

/- ## C3 -/

/-- A feature whose postcode tag is the perfectly parseable integer string
`"1010"`. -/
def elemFullTags : Element :=
  ⟨none, some (16, 48),
    [("addr:street", "Main St"), ("addr:housenumber", "12"),
      ("addr:postcode", "1010"), ("addr:city", "Wien")]⟩

/-- C3: the postcode coercion step does not produce an integer-or-absent
column — it raises `AttributeError` even when every collected postcode is a
valid integer string, because line 331 calls `.astype("int")` on a plain
Python list. -/
theorem c3_coercion_always_raises :
    download_housenumbers PyVal.vnone ⟨[], []⟩ ⟨[], []⟩ (fun _ _ => false) (fun _ _ => false)
      [⟨[elemFullTags], [], []⟩] = .error .attributeError := by
  decide

/- ## C1 -/

/-- A postal-code-area table with one area: postcode `"1010"`, city `"Wien"`. -/
def paWien : Frame :=
  ⟨[.vint 0],
    [(cityK, [.vstr "Wien"]), (pcK, [.vstr "1010"]),
      (geomK, [.vgeom (.shape "postal code area 1010")])]⟩

/-- A municipality table with one municipality named `"Wien"`. -/
def munWien : Frame :=
  ⟨[.vint 0], [(cityK, [.vstr "Wien"]), (geomK, [.vgeom (.shape "municipality Wien")])]⟩

/-- A feature carrying street and housenumber tags but no postcode/city. -/
def elemNoPcCity : Element :=
  ⟨none, some (16, 48), [("addr:street", "Main St"), ("addr:housenumber", "12")]⟩

/-- C1: at the claim's own scenario — a feature with only street/housenumber
tags whose point lies within exactly one postal-code area (the containment
predicate reports the single area) — the fetcher records `None` for both
postcode and city instead of the area's `"1010"`/`"Wien"`: the lookup
`postcode_areas.loc[...][0]` raises `KeyError` (there is no column labelled
`0`), the municipality fallback fails identically, and both fields fall
through to `append(None)`. -/
theorem c1_backfill_records_nothing :
    processElements paWien munWien (fun _ _ => true) (fun _ _ => true)
        [elemNoPcCity] initAddrCols
      = .ok ⟨.pylist [.vstr "Main St"], .pylist [.vstr "12"], .pylist [.vnone],
          .pylist [.vnone], [.point 16 48]⟩
    ∧ findCol paWien.cols pcK = some [.vstr "1010"]
    ∧ findCol paWien.cols cityK = some [.vstr "Wien"] := by
  decide

/- ## Frame lemmas for the gap-filling passes -/

theorem findCol_cons_ne (kc : PyKey × List PyVal) (cols : List (PyKey × List PyVal))
    (k : PyKey) (h : kc.fst ≠ k) : findCol (kc :: cols) k = findCol cols k := by
  simp [findCol, h]

theorem findCol_append_left (k : PyKey) (vs : List PyVal) (cols2 : List (PyKey × List PyVal)) :
    ∀ cols, findCol cols k = some vs → findCol (cols ++ cols2) k = some vs := by
  intro cols
  induction cols with
  | nil => intro h; cases h
  | cons kc cols ih =>
    intro h
    by_cases hk : kc.fst = k
    · simp only [findCol, if_pos hk] at h
      simpa [findCol, hk] using h
    · simp only [findCol, if_neg hk] at h
      simpa [List.cons_append, findCol, hk] using ih h

theorem findCol_append_right (k : PyKey) (cols2 : List (PyKey × List PyVal)) :
    ∀ cols, findCol cols k = none → findCol (cols ++ cols2) k = findCol cols2 k := by
  intro cols
  induction cols with
  | nil => intro _; rfl
  | cons kc cols ih =>
    intro h
    by_cases hk : kc.fst = k
    · simp [findCol, hk] at h
    · simp only [findCol, if_neg hk] at h
      simpa [List.cons_append, findCol, hk] using ih h

theorem findCol_filter_ne (k k0 : PyKey) (h : k ≠ k0) :
    ∀ cols, findCol (cols.filter (fun kc => decide (kc.fst ≠ k0))) k = findCol cols k := by
  intro cols
  induction cols with
  | nil => rfl
  | cons kc cols ih =>
    by_cases hk0 : kc.fst = k0
    · have hd : decide (kc.fst ≠ k0) = false := by simp [hk0]
      have hne : kc.fst ≠ k := fun hh => h (hh ▸ hk0)
      simp only [List.filter_cons, hd, Bool.false_eq_true, if_false]
      rw [ih, findCol_cons_ne _ _ _ hne]
    · have hd : decide (kc.fst ≠ k0) = true := by simp [hk0]
      simp only [List.filter_cons, hd, if_true]
      by_cases hk : kc.fst = k
      · simp [findCol, hk]
      · rw [findCol_cons_ne _ _ _ hk, findCol_cons_ne _ _ _ hk, ih]

theorem findCol_massignMap_ne (k k' : PyKey) (mask : List Bool) (vals : List PyVal)
    (h : k' ≠ k) :
    ∀ cols,
      findCol (cols.map (fun kc => if kc.fst = k then (kc.fst, massign mask kc.snd vals) else kc)) k'
        = findCol cols k' := by
  intro cols
  induction cols with
  | nil => rfl
  | cons kc cols ih =>
    by_cases hk : kc.fst = k
    · have hne : kc.fst ≠ k' := by rw [hk]; exact fun hh => h hh.symm
      simp [findCol, hk, hne, ih, Ne.symm h]
    · by_cases hk' : kc.fst = k'
      · simp [findCol, hk, hk', h, ih]
      · simp [findCol, hk, hk', ih]

theorem findCol_massignMap_eq (k : PyKey) (mask : List Bool) (vals : List PyVal) :
    ∀ cols vs, findCol cols k = some vs →
      findCol (cols.map (fun kc => if kc.fst = k then (kc.fst, massign mask kc.snd vals) else kc)) k
        = some (massign mask vs vals) := by
  intro cols
  induction cols with
  | nil => intro vs h; cases h
  | cons kc cols ih =>
    intro vs h
    by_cases hk : kc.fst = k
    · simp only [findCol, if_pos hk] at h
      injection h with h
      simp [findCol, hk, h]
    · simp only [findCol, if_neg hk] at h
      simp [findCol, hk, ih vs h]

theorem maskedAssign_findCol_ne (f : Frame) (k k' : PyKey) (mask : List Bool)
    (vals : List PyVal) (h : k' ≠ k) :
    findCol (maskedAssign f k mask vals).cols k' = findCol f.cols k' :=
  findCol_massignMap_ne k k' mask vals h f.cols

theorem maskedAssign_findCol_eq (f : Frame) (k : PyKey) (mask : List Bool)
    (vals vs : List PyVal) (h : findCol f.cols k = some vs) :
    findCol (maskedAssign f k mask vals).cols k = some (massign mask vs vals) :=
  findCol_massignMap_eq k mask vals f.cols vs h

theorem massign_get?_false :
    ∀ (ms : List Bool) (os ns : List PyVal) (i : ℕ), ms.get? i = some false →
      (massign ms os ns).get? i = os.get? i := by
  intro ms
  induction ms with
  | nil => intro os ns i h; cases h
  | cons m ms ih =>
    intro os ns i h
    cases os with
    | nil => rfl
    | cons o os =>
      cases ns with
      | nil => rfl
      | cons n ns =>
        cases i with
        | zero =>
          injection h with h
          subst h
          rfl
        | succ i => exact ih os ns i h

theorem massign_get?_true :
    ∀ (ms : List Bool) (os ns : List PyVal) (i : ℕ) (u w : PyVal), ms.get? i = some true →
      os.get? i = some u → ns.get? i = some w → (massign ms os ns).get? i = some w := by
  intro ms
  induction ms with
  | nil => intro os ns i u w h _ _; cases h
  | cons m ms ih =>
    intro os ns i u w h ho hn
    cases os with
    | nil => cases ho
    | cons o os =>
      cases ns with
      | nil => cases hn
      | cons n ns =>
        cases i with
        | zero =>
          injection h with h
          subst h
          injection hn with hn
          subst hn
          rfl
        | succ i => exact ih os ns i u w h ho hn

theorem get?_map_some (f : α → β) :
    ∀ (l : List α) (i : ℕ) (a : α), l.get? i = some a → (l.map f).get? i = some (f a) := by
  intro l
  induction l with
  | nil => intro i a h; cases h
  | cons x l ih =>
    intro i a h
    cases i with
    | zero => injection h with h; subst h; rfl
    | succ i => exact ih i a h

theorem zipWith_get?_some (f : α → β → γ) :
    ∀ (as : List α) (bs : List β) (i : ℕ) (a : α) (b : β),
      as.get? i = some a → bs.get? i = some b →
      (List.zipWith f as bs).get? i = some (f a b) := by
  intro as
  induction as with
  | nil => intro bs i a b h _; cases h
  | cons x as ih =>
    intro bs i a b h hb
    cases bs with
    | nil => cases hb
    | cons y bs =>
      cases i with
      | zero =>
        injection h with h
        injection hb with hb
        subst h
        subst hb
        rfl
      | succ i => exact ih bs i a b h hb

theorem selectColsAux_map_fst :
    ∀ (ks : List PyKey) (cols cols2), selectColsAux cols ks = .ok cols2 →
      cols2.map Prod.fst = ks := by
  intro ks
  induction ks with
  | nil => intro cols cols2 h; cases h; rfl
  | cons k ks ih =>
    intro cols cols2 h
    unfold selectColsAux at h
    split at h
    · cases h
    · split at h
      · cases h
      · rename_i rest hrest
        cases h
        simp [ih cols rest hrest]

theorem selectColsAux_mem :
    ∀ (ks : List PyKey) (cols cols2) (k : PyKey) (vs : List PyVal),
      selectColsAux cols ks = .ok cols2 → k ∈ ks → findCol cols k = some vs →
      findCol cols2 k = some vs := by
  intro ks
  induction ks with
  | nil => intro cols cols2 k vs _ hk _; cases hk
  | cons k0 ks ih =>
    intro cols cols2 k vs h hk hf
    unfold selectColsAux at h
    split at h
    · cases h
    · rename_i vs0 hvs0
      split at h
      · cases h
      · rename_i rest hrest
        cases h
        by_cases hke : k0 = k
        · subst hke
          rw [hvs0] at hf
          injection hf with hf
          simp [findCol, hf]
        · have hk' : k ∈ ks := by
            rcases List.mem_cons.mp hk with hh | hh
            · exact absurd hh.symm hke
            · exact hh
          rw [findCol_cons_ne _ _ _ hke]
          exact ih cols rest k vs hrest hk' hf

theorem selectCols_ok_cols (f : Frame) (ks : List PyKey) (g : Frame)
    (h : selectCols f ks = .ok g) : g.cols.map Prod.fst = ks := by
  unfold selectCols at h
  split at h
  · cases h
  · rename_i cols2 hcols2
    cases h
    exact selectColsAux_map_fst ks f.cols cols2 hcols2

theorem resetIndex_ok (f : Frame) (name : String) (a : Frame)
    (h : resetIndex f name = .ok a) :
    a.cols = (.kstr name, f.index) :: f.cols ∧ a.index = rangeIdx f.index.length := by
  unfold resetIndex at h
  split at h
  · cases h
  · cases h; exact ⟨rfl, rfl⟩

theorem setIndex_ok (f : Frame) (k : PyKey) (a : Frame) (h : setIndex f k = .ok a) :
    findCol f.cols k = some a.index
      ∧ a.cols = f.cols.filter (fun kc => decide (kc.fst ≠ k)) := by
  unfold setIndex at h
  split at h
  · cases h
  · rename_i vs hvs
    cases h
    exact ⟨hvs, rfl⟩

theorem joinSeries_ok (f : Frame) (sIdx sVals : List PyVal) (sName rsuffix : String) (a : Frame)
    (h : joinSeries f sIdx sVals sName rsuffix = .ok a)
    (hex : (findCol f.cols (.kstr sName)).isSome = true) :
    a.index = f.index
    ∧ a.cols = f.cols ++
        [(.kstr (sName ++ rsuffix),
          f.index.map (fun v => (lookupIdx sIdx sVals v).getD .vnone))]
    ∧ findCol f.cols (.kstr (sName ++ rsuffix)) = none := by
  unfold joinSeries at h
  simp only [hex, if_true] at h
  split at h
  · cases h
  · rename_i hns
    cases hfc : findCol f.cols (.kstr (sName ++ rsuffix)) with
    | none => cases h; exact ⟨rfl, rfl, rfl⟩
    | some vs => rw [hfc] at hns; exact absurd rfl hns

theorem joinFrame_ok (f r b : Frame) (h : joinFrame f r = .ok b) :
    b.index = f.index
    ∧ b.cols = f.cols ++ r.cols.map (fun kc =>
        (kc.fst, f.index.map (fun v => (lookupIdx r.index kc.snd v).getD .vnone))) := by
  unfold joinFrame at h
  split at h
  · cases h
  · cases h; exact ⟨rfl, rfl⟩

/-- Whether a pandas call returned normally. -/
def isOkE : Except PyError Frame → Bool
  | .ok _ => true
  | .error _ => false

/-- The frame of a normal return (junk on an exception; only ever read under
`isOkE`). -/
def okFrame : Except PyError Frame → Frame
  | .ok g => g
  | .error _ => ⟨[], []⟩

/-- The column labels of a normal return. -/
def colsOfE (x : Except PyError Frame) : List PyKey :=
  (okFrame x).cols.map Prod.fst

/- ## C5 -/

/-- Whatever frame pass 2 returns has exactly the five reset columns. -/
theorem neighbourFill_ok_cols (touches : PyVal → PyVal → Bool) (f g : Frame)
    (h : neighbourFill touches f = .ok g) :
    g.cols.map Prod.fst = [stK, hnK, pcK, cityK, geomK] := by
  unfold neighbourFill at h
  dsimp only at h
  split at h <;> try exact Except.noConfusion h
  split at h <;> try exact Except.noConfusion h
  split at h <;> try exact Except.noConfusion h
  split at h <;> try exact Except.noConfusion h
  split at h <;> try exact Except.noConfusion h
  split at h <;> try exact Except.noConfusion h
  split at h <;> try exact Except.noConfusion h
  exact selectCols_ok_cols _ _ _ h

/-- Whatever frame `fill_in_gaps` returns has exactly the five reset columns
of its final column selection — in particular no `id`. -/
theorem fillInGaps_ok_cols (touches : PyVal → PyVal → Bool) (f g : Frame)
    (h : fillInGaps touches f = .ok g) :
    g.cols.map Prod.fst = [stK, hnK, pcK, cityK, geomK] := by
  unfold fillInGaps at h
  split at h
  · exact Except.noConfusion h
  · exact neighbourFill_ok_cols touches _ g h

/-- C5 (amended): the tessellation frame that reaches the voronoi archive has
columns `street, housenumber, postcode, city, geometry` — the `id` column
attached in `main` is dropped by the column resets inside `fill_in_gaps`
before serialization. -/
theorem c5_voronoi_columns (addresses : Frame) (cells : List PyVal)
    (contains : PyVal → PyVal → Bool) (clipFn : Frame → Frame)
    (touches : PyVal → PyVal → Bool)
    (hok : isOkE (voronoiStage addresses cells contains clipFn touches) = true) :
    colsOfE (voronoiStage addresses cells contains clipFn touches)
      = [stK, hnK, pcK, cityK, geomK] := by
  cases hv : voronoiStage addresses cells contains clipFn touches with
  | error e => rw [hv] at hok; exact Bool.noConfusion hok
  | ok g =>
    show g.cols.map Prod.fst = _
    unfold voronoiStage at hv
    dsimp only at hv
    split at hv
    · exact Except.noConfusion hv
    · exact fillInGaps_ok_cols _ _ _ hv

/-- A one-row address table with all five attribute columns filled. -/
def addrW : Frame :=
  ⟨[.vint 0],
    [(stK, [.vstr "Main St"]), (hnK, [.vstr "12"]), (pcK, [.vstr "1010"]),
      (cityK, [.vstr "Wien"]), (geomK, [.vgeom (.point 16 48)])]⟩

/-- C5 counterexample: on a concrete run of the tessellation stage the output
frame exists and its columns do *not* include `id` (claim says they do). -/
theorem c5_voronoi_columns_counterexample :
    isOkE (voronoiStage addrW [.vgeom (.shape "cell 0")] (fun _ _ => true) id
        (fun _ _ => false)) = true
    ∧ idK ∉ colsOfE (voronoiStage addrW [.vgeom (.shape "cell 0")] (fun _ _ => true) id
        (fun _ _ => false)) := by
  decide

theorem c5_voronoi_columns_witness :
    colsOfE (voronoiStage addrW [.vgeom (.shape "cell 0")] (fun _ _ => true) id
        (fun _ _ => false)) = [stK, hnK, pcK, cityK, geomK] :=
  c5_voronoi_columns addrW [.vgeom (.shape "cell 0")] (fun _ _ => true) id
    (fun _ _ => false) (by decide)

/- ## C7 -/

/-- C7: the neighbour-majority fill pass writes only to fields that were
missing — any row whose `postcode` (respectively `city`) was non-null before
the pass carries the identical value after it. -/
theorem c7_neighbour_fill_preserves (touches : PyVal → PyVal → Bool) (f : Frame)
    (hok : isOkE (neighbourFill touches f) = true) (i : ℕ) (v : PyVal) (hv : v ≠ .vnone) :
    (colAt f pcK i = some v → colAt (okFrame (neighbourFill touches f)) pcK i = some v)
    ∧ (colAt f cityK i = some v → colAt (okFrame (neighbourFill touches f)) cityK i = some v) := by
  cases hnf : neighbourFill touches f with
  | error e => rw [hnf] at hok; exact Bool.noConfusion hok
  | ok g =>
    unfold neighbourFill at hnf
    dsimp only at hnf
    split at hnf <;> try exact Except.noConfusion hnf
    rename_i a hra
    split at hnf <;> try exact Except.noConfusion hnf
    rename_i cVals pVals hcv hpv
    split at hnf <;> try exact Except.noConfusion hnf
    rename_i rsel hrsel
    split at hnf <;> try exact Except.noConfusion hnf
    rename_i nbrs hnbrs
    split at hnf <;> try exact Except.noConfusion hnf
    rename_i b hjf
    split at hnf <;> try exact Except.noConfusion hnf
    rename_i pB prB hbp hbr
    split at hnf <;> try exact Except.noConfusion hnf
    rename_i cB crB hbc hbcr
    obtain ⟨hacols, haidx⟩ := resetIndex_ok f "id" a hra
    obtain ⟨hbidx, hbcols⟩ := joinFrame_ok a nbrs b hjf
    have hapc : findCol a.cols pcK = findCol f.cols pcK := by
      rw [hacols]
      exact findCol_cons_ne _ _ _ (show (PyKey.kstr "id") ≠ pcK by decide)
    have hacity : findCol a.cols cityK = findCol f.cols cityK := by
      rw [hacols]
      exact findCol_cons_ne _ _ _ (show (PyKey.kstr "id") ≠ cityK by decide)
    have hbpcv : findCol b.cols pcK = some pVals := by
      rw [hbcols]; exact findCol_append_left _ _ _ _ hpv
    have hbcityv : findCol b.cols cityK = some cVals := by
      rw [hbcols]; exact findCol_append_left _ _ _ _ hcv
    have hpBv : pVals = pB := by
      have hh := hbpcv.symm.trans hbp
      injection hh
    subst hpBv
    have hcBv : cVals = cB := by
      have h1 := maskedAssign_findCol_ne b pcK cityK
        (pVals.map (fun w => decide (w = PyVal.vnone))) prB (by decide)
      have hh := hbcityv.symm.trans (h1.symm.trans hbc)
      injection hh
    subst hcBv
    unfold selectCols at hnf
    split at hnf <;> try exact Except.noConfusion hnf
    rename_i cols2 haux
    cases hnf
    have hb2pc : findCol cols2 pcK =
        some (massign (pVals.map (fun w => decide (w = PyVal.vnone))) pVals prB) := by
      refine selectColsAux_mem _ _ _ _ _ haux (by decide) ?_
      rw [maskedAssign_findCol_ne _ cityK pcK _ _ (by decide)]
      exact maskedAssign_findCol_eq b pcK _ prB pVals hbpcv
    have hb2city : findCol cols2 cityK =
        some (massign (cVals.map (fun w => decide (w = PyVal.vnone))) cVals crB) := by
      refine selectColsAux_mem _ _ _ _ _ haux (by decide) ?_
      exact maskedAssign_findCol_eq _ cityK _ crB cVals hbc
    constructor
    · intro hfpc
      unfold colAt at hfpc ⊢
      cases hfp : findCol f.cols pcK with
      | none =>
        rw [hfp] at hfpc
        exact Option.noConfusion hfpc
      | some pcs =>
        rw [hfp] at hfpc
        replace hfpc : pcs.get? i = some v := hfpc
        have hpcs : pVals = pcs := by
          have hh := (hbpcv.symm.trans ((hbcols ▸ findCol_append_left _ _ _ _
            (hapc.trans hfp) : findCol b.cols pcK = some pcs)))
          injection hh
        subst hpcs
        dsimp only [okFrame]
        rw [hb2pc]
        show (massign (pVals.map (fun w => decide (w = PyVal.vnone))) pVals prB).get? i = some v
        have hmask : (pVals.map (fun w => decide (w = PyVal.vnone))).get? i = some false := by
          have hm : (pVals.map (fun w => decide (w = PyVal.vnone))).get? i
              = some (decide (v = PyVal.vnone)) :=
            get?_map_some (fun w => decide (w = PyVal.vnone)) pVals i v hfpc
          rwa [decide_eq_false hv] at hm
        rw [massign_get?_false _ _ _ _ hmask]
        exact hfpc
    · intro hfc
      unfold colAt at hfc ⊢
      cases hfcc : findCol f.cols cityK with
      | none =>
        rw [hfcc] at hfc
        exact Option.noConfusion hfc
      | some cs =>
        rw [hfcc] at hfc
        replace hfc : cs.get? i = some v := hfc
        have hcs : cVals = cs := by
          have hh := hcv.symm.trans (hacity.trans hfcc)
          injection hh
        subst hcs
        dsimp only [okFrame]
        rw [hb2city]
        show (massign (cVals.map (fun w => decide (w = PyVal.vnone))) cVals crB).get? i = some v
        have hmask : (cVals.map (fun w => decide (w = PyVal.vnone))).get? i = some false := by
          have hm : (cVals.map (fun w => decide (w = PyVal.vnone))).get? i
              = some (decide (v = PyVal.vnone)) :=
            get?_map_some (fun w => decide (w = PyVal.vnone)) cVals i v hfc
          rwa [decide_eq_false hv] at hm
        rw [massign_get?_false _ _ _ _ hmask]
        exact hfc

/-- A two-row frame: the first row fully attributed, the second missing
postcode and city. -/
def fillW : Frame :=
  ⟨rangeIdx 2,
    [(stK, [.vstr "A", .vstr "B"]), (hnK, [.vstr "1", .vstr "2"]),
      (pcK, [.vstr "1010", .vnone]), (cityK, [.vstr "Wien", .vnone]),
      (geomK, [.vgeom (.point 0 0), .vgeom (.point 1 1)])]⟩

theorem c7_neighbour_fill_preserves_witness :
    colAt (okFrame (neighbourFill (fun _ _ => false) fillW)) pcK 0 = some (.vstr "1010")
    ∧ colAt (okFrame (neighbourFill (fun _ _ => false) fillW)) cityK 0 = some (.vstr "Wien") :=
  ⟨(c7_neighbour_fill_preserves (fun _ _ => false) fillW (by decide) 0 (.vstr "1010")
      (by decide)).1 (by decide),
   (c7_neighbour_fill_preserves (fun _ _ => false) fillW (by decide) 0 (.vstr "Wien")
      (by decide)).2 (by decide)⟩

/- ## C8 -/

/-- C8: the postcode-propagated city fill assigns at most one city per
postcode — any two rows that the pass fills (city null before, non-null
after) and that carry the same postcode receive the same city, namely the
canonical city looked up for that postcode. -/
theorem c8_one_city_per_postcode (f : Frame)
    (hok : isOkE (postcodeCityFill f) = true) (i j : ℕ) (p ci cj : PyVal)
    (hpi : colAt f pcK i = some p) (hpj : colAt f pcK j = some p)
    (hfi : colAt f cityK i = some .vnone) (hfj : colAt f cityK j = some .vnone)
    (hgi : colAt (okFrame (postcodeCityFill f)) cityK i = some ci)
    (hgj : colAt (okFrame (postcodeCityFill f)) cityK j = some cj)
    (hni : ci ≠ .vnone) (hnj : cj ≠ .vnone) : ci = cj := by
  cases hnf : postcodeCityFill f with
  | error e => rw [hnf] at hok; exact Bool.noConfusion hok
  | ok g =>
    rw [hnf] at hgi hgj
    unfold postcodeCityFill at hnf
    dsimp only at hnf
    split at hnf <;> try exact Except.noConfusion hnf
    rename_i cityVals hcv0
    split at hnf <;> try exact Except.noConfusion hnf
    rename_i grouped hgf
    split at hnf <;> try exact Except.noConfusion hnf
    rename_i grouped2 hri2
    split at hnf <;> try exact Except.noConfusion hnf
    rename_i gsel hsel
    split at hnf <;> try exact Except.noConfusion hnf
    rename_i postcodes hsip
    split at hnf <;> try exact Except.noConfusion hnf
    rename_i a1 hsif
    split at hnf <;> try exact Except.noConfusion hnf
    rename_i canonCity hcc
    split at hnf <;> try exact Except.noConfusion hnf
    rename_i a2 hjs
    split at hnf <;> try exact Except.noConfusion hnf
    rename_i a3 hri3
    split at hnf <;> try exact Except.noConfusion hnf
    rename_i c3 cfp3 hc3 hcfp3
    obtain ⟨hfpc_a1, ha1cols⟩ := setIndex_ok f pcK a1 hsif
    have ha1city : findCol a1.cols cityK = some cityVals := by
      rw [ha1cols, findCol_filter_ne cityK pcK (by decide)]
      exact hcv0
    have hex : (findCol a1.cols (.kstr "city")).isSome = true := by
      rw [show (PyKey.kstr "city") = cityK from rfl, ha1city]; rfl
    obtain ⟨ha2idx, ha2cols, ha2none⟩ :=
      joinSeries_ok a1 postcodes.index canonCity "city" "_from_postcodes" a2 hjs hex
    rw [show (PyKey.kstr ("city" ++ "_from_postcodes")) = cfpK from rfl] at ha2cols ha2none
    obtain ⟨ha3cols, ha3idx⟩ := resetIndex_ok a2 "postcode" a3 hri3
    have hc3v : cityVals = c3 := by
      have h1 : findCol a3.cols cityK = some cityVals := by
        rw [ha3cols, findCol_cons_ne _ _ _ (show (PyKey.kstr "postcode") ≠ cityK by decide),
          ha2cols]
        exact findCol_append_left _ _ _ _ ha1city
      have hh := h1.symm.trans hc3
      injection hh
    subst hc3v
    have hcfpv : (a1.index.map
        (fun w => (lookupIdx postcodes.index canonCity w).getD PyVal.vnone)) = cfp3 := by
      have h1 : findCol a3.cols cfpK = some (a1.index.map
          (fun w => (lookupIdx postcodes.index canonCity w).getD PyVal.vnone)) := by
        rw [ha3cols, findCol_cons_ne _ _ _ (show (PyKey.kstr "postcode") ≠ cfpK by decide),
          ha2cols, findCol_append_right cfpK _ a1.cols ha2none]
        simp [findCol]
      have hh := h1.symm.trans hcfp3
      injection hh
    subst hcfpv
    unfold selectCols at hnf
    split at hnf <;> try exact Except.noConfusion hnf
    rename_i cols2 haux
    cases hnf
    have hgcity : findCol cols2 cityK = some (massign
        (List.zipWith (fun x y => decide (x = PyVal.vnone) && decide (y ≠ PyVal.vnone))
          cityVals (a1.index.map
            (fun w => (lookupIdx postcodes.index canonCity w).getD PyVal.vnone)))
        cityVals
        (a1.index.map
          (fun w => (lookupIdx postcodes.index canonCity w).getD PyVal.vnone))) := by
      refine selectColsAux_mem _ _ _ _ _ haux (by decide) ?_
      exact maskedAssign_findCol_eq a3 cityK _ _ cityVals hc3
    unfold colAt at hpi hpj hfi hfj hgi hgj
    rw [hfpc_a1] at hpi hpj
    rw [hcv0] at hfi hfj
    replace hpi : a1.index.get? i = some p := hpi
    replace hpj : a1.index.get? j = some p := hpj
    replace hfi : cityVals.get? i = some PyVal.vnone := hfi
    replace hfj : cityVals.get? j = some PyVal.vnone := hfj
    dsimp only [okFrame] at hgi hgj
    rw [hgcity] at hgi hgj
    replace hgi : (massign
        (List.zipWith (fun x y => decide (x = PyVal.vnone) && decide (y ≠ PyVal.vnone))
          cityVals (a1.index.map
            (fun w => (lookupIdx postcodes.index canonCity w).getD PyVal.vnone)))
        cityVals
        (a1.index.map
          (fun w => (lookupIdx postcodes.index canonCity w).getD PyVal.vnone))).get? i
        = some ci := hgi
    replace hgj : (massign
        (List.zipWith (fun x y => decide (x = PyVal.vnone) && decide (y ≠ PyVal.vnone))
          cityVals (a1.index.map
            (fun w => (lookupIdx postcodes.index canonCity w).getD PyVal.vnone)))
        cityVals
        (a1.index.map
          (fun w => (lookupIdx postcodes.index canonCity w).getD PyVal.vnone))).get? j
        = some cj := hgj
    have key : ∀ (r : ℕ) (cr : PyVal), a1.index.get? r = some p →
        cityVals.get? r = some PyVal.vnone →
        (massign
          (List.zipWith (fun x y => decide (x = PyVal.vnone) && decide (y ≠ PyVal.vnone))
            cityVals (a1.index.map
              (fun w => (lookupIdx postcodes.index canonCity w).getD PyVal.vnone)))
          cityVals
          (a1.index.map
            (fun w => (lookupIdx postcodes.index canonCity w).getD PyVal.vnone))).get? r
          = some cr →
        cr ≠ PyVal.vnone →
        cr = (lookupIdx postcodes.index canonCity p).getD PyVal.vnone := by
      intro r cr hpr hcr hmr hnr
      have hmap : (a1.index.map
          (fun w => (lookupIdx postcodes.index canonCity w).getD PyVal.vnone)).get? r
          = some ((lookupIdx postcodes.index canonCity p).getD PyVal.vnone) :=
        get?_map_some (fun w => (lookupIdx postcodes.index canonCity w).getD PyVal.vnone)
          a1.index r p hpr
      have hzip : (List.zipWith (fun x y => decide (x = PyVal.vnone) && decide (y ≠ PyVal.vnone))
          cityVals (a1.index.map
            (fun w => (lookupIdx postcodes.index canonCity w).getD PyVal.vnone))).get? r
          = some (decide ((PyVal.vnone : PyVal) = PyVal.vnone) &&
              decide ((lookupIdx postcodes.index canonCity p).getD PyVal.vnone ≠ PyVal.vnone)) :=
        zipWith_get?_some _ cityVals _ r PyVal.vnone _ hcr hmap
      by_cases hcp : (lookupIdx postcodes.index canonCity p).getD PyVal.vnone = PyVal.vnone
      · have hfalse : (decide ((PyVal.vnone : PyVal) = PyVal.vnone) &&
            decide ((lookupIdx postcodes.index canonCity p).getD PyVal.vnone ≠ PyVal.vnone))
            = false := by
          simp [hcp]
        rw [hfalse] at hzip
        rw [massign_get?_false _ _ _ r hzip, hcr] at hmr
        injection hmr with hmr
        exact absurd hmr.symm hnr
      · have htrue : (decide ((PyVal.vnone : PyVal) = PyVal.vnone) &&
            decide ((lookupIdx postcodes.index canonCity p).getD PyVal.vnone ≠ PyVal.vnone))
            = true := by
          simp [hcp]
        rw [htrue] at hzip
        rw [massign_get?_true _ _ _ r PyVal.vnone _ hzip hcr hmap] at hmr
        injection hmr with hmr
        exact hmr.symm
    rw [key i ci hpi hfi hgi hni, key j cj hpj hfj hgj hnj]

/-- A three-row frame sharing postcode `"1010"`: one row knows the city, two
rows are missing it. -/
def cityFillW : Frame :=
  ⟨rangeIdx 3,
    [(stK, [.vstr "A", .vstr "B", .vstr "C"]), (hnK, [.vstr "1", .vstr "2", .vstr "3"]),
      (pcK, [.vstr "1010", .vstr "1010", .vstr "1010"]),
      (cityK, [.vstr "Wien", .vnone, .vnone]),
      (geomK, [.vgeom (.point 0 0), .vgeom (.point 1 1), .vgeom (.point 2 2)])]⟩

theorem c8_one_city_per_postcode_witness :
    colAt (okFrame (postcodeCityFill cityFillW)) cityK 1 = some (.vstr "Wien")
    ∧ (PyVal.vstr "Wien") = (PyVal.vstr "Wien") :=
  ⟨by decide,
   c8_one_city_per_postcode cityFillW (by decide) 1 2 (.vstr "1010") (.vstr "Wien")
     (.vstr "Wien") (by decide) (by decide) (by decide) (by decide) (by decide) (by decide)
     (by decide) (by decide)⟩
